import Mathlib

/-!
Verification of the coregistration filtering and orchestration pipeline
(`scripts/arosics_filter.py`, `scripts/filters.py`, `scripts/helpers.py`,
`scripts/file_utilites.py`, `scripts/geo_utils.py`).

Python floats are modelled by `ℚ` together with explicit `NaN` / `None`
constructors where the code can observe them; pandas dataframes are modelled
as lists of rows; Python dicts as association lists in insertion order.
-/

namespace Coreg

/-- A pandas cell value as observed by the filter code: Python `None`,
float `NaN`, or a number (floats modelled by `ℚ`). -/
inductive PyF where
  | none
  | nan
  | num (q : ℚ)
deriving DecidableEq, Repr

/-- Models the Python test `x is None` (`NaN is None` is `False`). -/
def PyF.isNone : PyF → Bool
  | .none => true
  | _ => false

/-- Models `pd.isnull` / `pd.isna`: true for both `None` and `NaN`. -/
def PyF.isnull : PyF → Bool
  | .none => true
  | .nan => true
  | .num _ => false

/-- Models `pd.notna`. -/
def PyF.notna (v : PyF) : Bool := !v.isnull

/-- Numeric comparison `x < t` as evaluated by pandas/numpy on a float
column: `NaN < t` is `False`.  (`None` occurs in a numeric column only after
pandas has coerced it to `NaN`, so it compares like `NaN`.) -/
def PyF.ltB (v : PyF) (t : ℚ) : Bool :=
  match v with
  | .num q => decide (q < t)
  | _ => false

/-- Numeric comparison `x > t`, same conventions as `PyF.ltB`. -/
def PyF.gtB (v : PyF) (t : ℚ) : Bool :=
  match v with
  | .num q => decide (q > t)
  | _ => false

/-- The numeric value of a cell; only used on cells that passed a `notna`
guard, where the cell is `num`. -/
def PyF.toQ : PyF → ℚ
  | .num q => q
  | _ => 0

/-- Value of the derived `z_score` column.  The code stores
`np.sqrt(z_x**2 + z_y**2)`; we store the radicand `q` of that square root in
`sq q` (the downstream uses — NaN test, truthiness, comparison with a
threshold — are all expressible through the radicand), and keep explicit
`nan` / `inf` constructors for the degenerate zero-standard-deviation
divisions `0/0` and `c/0`. -/
inductive ZVal where
  | nan
  | inf
  | sq (q : ℚ)
deriving DecidableEq, Repr

/-- Models `pd.isna` on the z-score column. -/
def ZVal.isna : ZVal → Bool
  | .nan => true
  | _ => false

/-- Truthiness of the z-score as a float after the pandas `fill_bool` coercion
inside `Series.__or__`: `NaN` is filled to `False`, any other value is cast
with `bool` (nonzero is truthy; `sqrt q` is zero exactly when `q` is). -/
def ZVal.truthy : ZVal → Bool
  | .nan => false
  | .inf => true
  | .sq q => decide (q ≠ 0)

/-- One row of the filter table (`FilterTable` in the spec): the columns the
filter chain reads and writes.  `window_size` is the `[width, height]` pair
(`x[0]`, `x[1]` in `filter_window_size`). -/
structure Row where
  coregistered_ssim : PyF
  shift_reliability : PyF
  shift_x : PyF
  shift_y : PyF
  shift_x_meters : PyF
  shift_y_meters : PyF
  window_size : ℚ × ℚ
  z_score : ZVal
  filter_passed : Bool
deriving DecidableEq, Repr

/-- Models `arosics_filter.filter_out_nones`: row-wise
`False if row[col_name] is None else row["filter_passed"]` with the default
column `coregistered_ssim`. -/
def filter_out_nones (df : List Row) : List Row :=
  df.map fun r =>
    { r with filter_passed := if r.coregistered_ssim.isNone then false else r.filter_passed }

/-- Models `arosics_filter.filter_by_shift_reliability`: row-wise
`False if row[col] is None or row[col] < threshold else row["filter_passed"]`. -/
def filter_by_shift_reliability (df : List Row) (threshold : ℚ) : List Row :=
  df.map fun r =>
    { r with filter_passed :=
        if r.shift_reliability.isNone || r.shift_reliability.ltB threshold then false
        else r.filter_passed }

/-- Models `arosics_filter.filter_by_max_shift_meters`:
`np.where((x > t) | x.isnull() | (y > t) | y.isnull(), False, filter_passed)`.
Note the comparisons are on the signed shifts, not their absolute values. -/
def filter_by_max_shift_meters (df : List Row) (threshold : ℚ) : List Row :=
  df.map fun r =>
    { r with filter_passed :=
        if r.shift_x_meters.gtB threshold || r.shift_x_meters.isnull
            || r.shift_y_meters.gtB threshold || r.shift_y_meters.isnull then false
        else r.filter_passed }

/-- Models `arosics_filter.filter_window_size`:
`np.where((w[0] < t) | (w[1] < t), False, filter_passed)`. -/
def filter_window_size (df : List Row) (threshold : ℚ) : List Row :=
  df.map fun r =>
    { r with filter_passed :=
        if r.window_size.1 < threshold ∨ r.window_size.2 < threshold then false
        else r.filter_passed }

/-- An extended float value for the squared z-components
`((v - mu) / sigma)**2`: `NaN` (from `0/0`), `+inf` (from `c/0` squared), or
an exact rational. -/
inductive ExtQ where
  | nan
  | inf
  | num (q : ℚ)
deriving DecidableEq, Repr

/-- IEEE addition on the extended values (`NaN` absorbs, then `inf`). -/
def ExtQ.add : ExtQ → ExtQ → ExtQ
  | .nan, _ => .nan
  | _, .nan => .nan
  | .inf, _ => .inf
  | _, .inf => .inf
  | .num a, .num b => .num (a + b)

/-- Models `np.sqrt` of a (nonnegative) extended value, represented as a `ZVal`. -/
def ExtQ.sqrtZ : ExtQ → ZVal
  | .nan => ZVal.nan
  | .inf => ZVal.inf
  | .num q => ZVal.sq q

/-- Mean of a list of rationals (`np.mean`); the callers only use it on
nonempty lists. -/
def meanQ (l : List ℚ) : ℚ := l.sum / (l.length : ℚ)

/-- Population variance (`np.std` squared). -/
def varQ (l : List ℚ) : ℚ := meanQ (l.map fun x => (x - meanQ l) ^ 2)

/-- The squared z-component `((v - mu) / sqrt var)**2`.  When the standard
deviation is zero, numpy yields `0/0 = NaN` if `v = mu` and `±inf` otherwise
(squaring to `+inf`); else the value is the exact rational `(v-mu)^2 / var`. -/
def zsq (v mu var : ℚ) : ExtQ :=
  if var = 0 then (if v = mu then ExtQ.nan else ExtQ.inf)
  else ExtQ.num ((v - mu) ^ 2 / var)

/-- Models the clean population of `filters.calculate_zscore`: rows with both shifts
non-null, further restricted to passed rows when `filter_passed_only`. -/
def cleanRows (df : List Row) (filterPassedOnly : Bool) : List Row :=
  let c := df.filter fun r => r.shift_y.notna && r.shift_x.notna
  if filterPassedOnly then c.filter (·.filter_passed) else c

/-- The per-row `calculate_z_score` closure of `filters.calculate_zscore`:
guarded by `filter_passed` (only when `filter_passed_only`) and by both
shifts being non-null; rows failing the guard get `NaN` (the Python closure
returns `None` or `np.nan` there, and both read back as `NaN` in the float
column built by `df.apply`). -/
def zscoreRow (muX varX muY varY : ℚ) (filterPassedOnly : Bool) (r : Row) : ZVal :=
  if filterPassedOnly then
    if r.filter_passed && r.shift_x.notna && r.shift_y.notna then
      (ExtQ.add (zsq r.shift_x.toQ muX varX) (zsq r.shift_y.toQ muY varY)).sqrtZ
    else ZVal.nan
  else
    if r.shift_x.notna && r.shift_y.notna then
      (ExtQ.add (zsq r.shift_x.toQ muX varX) (zsq r.shift_y.toQ muY varY)).sqrtZ
    else ZVal.nan

/-- Models `filters.calculate_zscore`: computes the means and
standard deviations of `shift_x` / `shift_y` and writes the combined
z-score column for every row. -/
def calculate_zscore (df : List Row) (filterPassedOnly : Bool) : List Row :=
  let clean := cleanRows df filterPassedOnly
  let muX := meanQ (clean.map fun r => r.shift_x.toQ)
  let varX := varQ (clean.map fun r => r.shift_x.toQ)
  let muY := meanQ (clean.map fun r => r.shift_y.toQ)
  let varY := varQ (clean.map fun r => r.shift_y.toQ)
  df.map fun r => { r with z_score := zscoreRow muX varX muY varY filterPassedOnly r }

/-- The rejection mask of `filters.filter_zscores` line
`df.loc[pd.isna(df["z_score"]) | df["z_score"] > z_threshold, ...]`.
In Python `|` binds tighter than `>`, so this parses as
`(pd.isna(z) | z) > z_threshold`; pandas evaluates the inner `|` by coercing
the float operand to booleans (`fill_bool`: `NaN` to `False`, then `bool`),
and then compares the resulting boolean series (as `1`/`0`) with the
threshold. -/
def zMask (z : ZVal) (zThreshold : ℚ) : Bool :=
  decide ((if z.isna || z.truthy then (1 : ℚ) else 0) > zThreshold)

/-- Models `filters.filter_zscores`: computes the z-score column and sets
`filter_passed` to `False` on the rows selected by the mask. -/
def filter_zscores (df : List Row) (zThreshold : ℚ) (filterPassedOnly : Bool) : List Row :=
  let df' := calculate_zscore df filterPassedOnly
  df'.map fun r =>
    { r with filter_passed := if zMask r.z_score zThreshold then false else r.filter_passed }

/-- A stage of the filter chain of `arosics_filter.filter_coregistration`,
with its threshold/configuration. -/
inductive Stage where
  | outNones
  | reliability (threshold : ℚ)
  | windowSize (threshold : ℚ)
  | maxShift (threshold : ℚ)
  | zscores (zThreshold : ℚ) (filterPassedOnly : Bool)
deriving DecidableEq, Repr

/-- Apply one filter stage to the table. -/
def applyStage : Stage → List Row → List Row
  | .outNones, df => filter_out_nones df
  | .reliability t, df => filter_by_shift_reliability df t
  | .windowSize t, df => filter_window_size df t
  | .maxShift t, df => filter_by_max_shift_meters df t
  | .zscores t po, df => filter_zscores df t po

/-- Apply a sequence of filter stages left to right. -/
def applyChain (stages : List Stage) (df : List Row) : List Row :=
  stages.foldl (fun d s => applyStage s d) df

/-- A Python attribute/ dict value as observed by `helpers.make_coreg_info`:
`None`, a number, or a string (the code compares values against the string
literal `null`). -/
inductive PyV where
  | vnone
  | vnum (q : ℚ)
  | vstr (s : String)
deriving DecidableEq, Repr

/-- Python subtraction `a - b` on such values: defined only when both are
numbers, otherwise a `TypeError` is raised. -/
def PyV.sub : PyV → PyV → Except Unit PyV
  | .vnum a, .vnum b => .ok (.vnum (a - b))
  | _, _ => .error ()

/-- The engine result object (an `arosics.COREG`) as read by
`helpers.make_coreg_info`: each field is `Option`-wrapped, `Option.none`
meaning the attribute (or nested dict key) is absent so that the
`getattr` / `.get` default applies. -/
structure CoregObj where
  ssim_orig : Option PyV
  ssim_deshifted : Option PyV
  shift_x : Option PyV
  shift_y : Option PyV
  shift_x_meters : Option PyV
  shift_y_meters : Option PyV
  shift_reliability : Option PyV
  fft_win_size_YX : Option (ℚ × ℚ)
  success : Option Bool
deriving DecidableEq, Repr

/-- The normalized per-file record produced by `helpers.make_coreg_info`
(`CoregistrationRecord` in the spec); the CRS fields are carried unchanged
from the arguments and omitted here. -/
structure CoregRecord where
  original_ssim : PyV
  coregistered_ssim : PyV
  change_ssim : PyV
  shift_x : PyV
  shift_y : PyV
  shift_x_meters : PyV
  shift_y_meters : PyV
  shift_reliability : PyV
  window_size : ℚ × ℚ
  success : Bool
deriving DecidableEq, Repr

/-- Replace the string value `"null"` by the number `0`
(the `0 if v is the string null else v` pattern of `make_coreg_info`). -/
def nullToZero (v : PyV) : PyV :=
  if v = .vstr "null" then .vnum 0 else v

/-- The all-defaults record returned by `make_coreg_info` when no engine
object is supplied. -/
def defaultRecord : CoregRecord :=
  { original_ssim := .vnum 0
    coregistered_ssim := .vnum 0
    change_ssim := .vnum 0
    shift_x := .vnum 0
    shift_y := .vnum 0
    shift_x_meters := .vnum 0
    shift_y_meters := .vnum 0
    shift_reliability := .vnum 0
    window_size := (0, 0)
    success := false }

/-- Models `helpers.make_coreg_info`: builds the record from the engine object,
with defaults for missing attributes.  `change_ssim` is
`coregistered_ssim - original_ssim` when neither raw ssim is `None`
(a `TypeError` — modelled by `Except.error` — if one is a string there),
else the default `0`.  Attribute defaults: the ssims default to `0.0`, the
shifts to `0`, reliability to `False` (modelled as absent reliability
yielding the record default `vnum 0` after the `"null"` rewrite is skipped;
the Python default is the boolean `False`, which the claims never inspect,
so we store it as `vstr "False"`), the window to `[0, 0]` reversed. -/
def make_coreg_info (cro : Option CoregObj) : Except Unit CoregRecord :=
  match cro with
  | .none => .ok defaultRecord
  | .some cr =>
    let originalSsim := cr.ssim_orig.getD (.vnum 0)
    let coregisteredSsim := cr.ssim_deshifted.getD (.vnum 0)
    let changeSsimE : Except Unit PyV :=
      if originalSsim ≠ .vnone ∧ coregisteredSsim ≠ .vnone then
        coregisteredSsim.sub originalSsim
      else .ok (.vnum 0)
    match changeSsimE with
    | .error e => .error e
    | .ok changeSsim =>
      .ok { original_ssim := nullToZero originalSsim
            coregistered_ssim := nullToZero coregisteredSsim
            change_ssim := changeSsim
            shift_x := nullToZero (cr.shift_x.getD (.vnum 0))
            shift_y := nullToZero (cr.shift_y.getD (.vnum 0))
            shift_x_meters := nullToZero (cr.shift_x_meters.getD (.vnum 0))
            shift_y_meters := nullToZero (cr.shift_y_meters.getD (.vnum 0))
            shift_reliability := nullToZero (cr.shift_reliability.getD (.vstr "False"))
            window_size := ((cr.fft_win_size_YX.getD (0, 0)).2, (cr.fft_win_size_YX.getD (0, 0)).1)
            success := cr.success.getD false }

/-- The accumulation loop of `helpers.coregister_files`: the body has no
exception handling, so the first raised exception propagates and the loop
is abandoned. -/
def coregLoop {α ε ρ : Type} (runOne : α → Except ε ρ) :
    List α → List ρ → Except ε (List ρ)
  | [], acc => .ok acc.reverse
  | t :: ts, acc =>
    match runOne t with
    | .error e => .error e
    | .ok r => coregLoop runOne ts (r :: acc)

/-- Models `helpers.coregister_files`: early-returns `[]` on an empty list, then
iterates `coregister_file` (abstracted as `runOne`, which may raise) over
the targets, appending each result. -/
def coregister_files {α ε ρ : Type} (tifFiles : List α) (runOne : α → Except ε ρ) :
    Except ε (List ρ) :=
  if tifFiles.isEmpty then .ok [] else coregLoop runOne tifFiles []

/-- A JSON value; objects are association lists in insertion order,
modelling Python dicts. -/
inductive JVal where
  | null
  | bool (b : Bool)
  | num (q : ℚ)
  | str (s : String)
  | arr (xs : List JVal)
  | obj (kvs : List (String × JVal))

/-- Python dict `d[k] = v`: overwrite in place if the key exists (keeping
its position), else append at the end. -/
def setKey : List (String × JVal) → String → JVal → List (String × JVal)
  | [], k, v => [(k, v)]
  | (k', v') :: rest, k, v =>
    if k' = k then (k', v) :: rest else (k', v') :: setKey rest k v

/-- Python dict lookup `d[k]` (first matching key). -/
def lookupKey : List (String × JVal) → String → Option JVal
  | [], _ => none
  | (k', v) :: rest, k => if k' = k then some v else lookupKey rest k

/-- Models `OrderedDict.move_to_end`: moves the entry for `k` to the last
position; `KeyError` (modelled by `none`) when the key is absent. -/
def moveToEnd (d : List (String × JVal)) (k : String) : Option (List (String × JVal)) :=
  match lookupKey d k with
  | some v => some ((d.filter fun kv => decide (kv.1 ≠ k)) ++ [(k, v)])
  | none => none

/-- Python `dict.update`: insert every entry of `e` into `d` in order. -/
def dictUpdate (d e : List (String × JVal)) : List (String × JVal) :=
  e.foldl (fun acc kv => setKey acc kv.1 kv.2) d

/-- Models `helpers.merge_list_of_dicts`: update an initially empty dict with each
dict of the list in turn. -/
def merge_list_of_dicts (ds : List (List (String × JVal))) : List (String × JVal) :=
  ds.foldl dictUpdate []

/-- View a JSON value as the entry list of an object. -/
def asObj : JVal → Option (List (String × JVal))
  | .obj kvs => some kvs
  | _ => none

/-- View a JSON value as a list of objects (the shape
`merge_list_of_dicts` requires of `results[satellite]`; anything else makes
the Python code raise). -/
def asObjList : JVal → Option (List (List (String × JVal)))
  | .arr xs => xs.mapM asObj
  | _ => none

/-- Models `helpers.save_coregistered_results` (dict manipulation part; the
`json.dump` side effect is modelled separately by `jsonRoundTrip`):
merge the list the satellite maps to of per-file dicts into one dict, insert
`settings`, and move `settings` to the end.  `none` models the exceptions
the Python code would raise (missing satellite key, ill-shaped value). -/
def save_coregistered_results (results : List (String × JVal)) (satellite : String)
    (settings : JVal) : Option (List (String × JVal)) := do
  let v ← lookupKey results satellite
  let ds ← asObjList v
  let r1 := setKey results satellite (.obj (merge_list_of_dicts ds))
  let r2 := setKey r1 "settings" settings
  moveToEnd r2 "settings"

/-- The composite effect of `json.dump` followed by `json.load`: the dump
writes object keys in iteration order and the load rebuilds each object by
inserting its keys in document order into a fresh dict (duplicate keys
collapse, last occurrence winning); arrays and scalars round-trip as
themselves. -/
def jsonRoundTrip : JVal → JVal
  | .null => .null
  | .bool b => .bool b
  | .num q => .num q
  | .str s => .str s
  | .arr xs => .arr (xs.attach.map fun x => jsonRoundTrip x.1)
  | .obj kvs => .obj ((kvs.attach.map fun kv => (kv.1.1, jsonRoundTrip kv.1.2)).foldl
      (fun acc kv => setKey acc kv.1 kv.2) [])
decreasing_by
· have h := List.sizeOf_lt_of_mem x.2
  simp only [JVal.arr.sizeOf_spec]
  omega
· obtain ⟨⟨k1, v1⟩, hm⟩ := kv
  have h := List.sizeOf_lt_of_mem hm
  simp only [Prod.mk.sizeOf_spec, JVal.obj.sizeOf_spec] at h ⊢
  omega

/-- Well-formedness of a JSON value as produced from Python dicts: every
objects all have distinct keys (at every nesting depth). -/
inductive JWF : JVal → Prop where
  | null : JWF .null
  | bool (b : Bool) : JWF (.bool b)
  | num (q : ℚ) : JWF (.num q)
  | str (s : String) : JWF (.str s)
  | arr (xs : List JVal) : (∀ x ∈ xs, JWF x) → JWF (.arr xs)
  | obj (kvs : List (String × JVal)) : (kvs.map Prod.fst).Nodup →
      (∀ kv ∈ kvs, JWF kv.2) → JWF (.obj kvs)

/-- A flat filesystem model: the set of existing file paths and directory
paths, each kept as a list. -/
structure FS where
  files : List String
  dirs : List String
deriving DecidableEq, Repr

/-- Models `os.path.join` for the paths the code builds. -/
def pjoin (a b : String) : String := a ++ "/" ++ b

/-- Models `os.path.exists`. -/
def FS.existsPath (fs : FS) (p : String) : Bool :=
  fs.files.contains p || fs.dirs.contains p

/-- Models `os.makedirs(d, exist_ok=True)`. -/
def FS.makedirs (fs : FS) (d : String) : FS :=
  if fs.dirs.contains d then fs else { fs with dirs := fs.dirs ++ [d] }

/-- Models `shutil.copy src dst`: afterwards `dst` exists (contents are not
modelled). -/
def FS.copy (fs : FS) (_src dst : String) : FS :=
  if fs.files.contains dst then fs else { fs with files := fs.files ++ [dst] }

/-- Models `shutil.move src dst`: `src` is gone, `dst` exists. -/
def FS.move (fs : FS) (src dst : String) : FS :=
  let fs' : FS := { fs with files := fs.files.filter fun p => decide (p ≠ src) }
  if fs'.files.contains dst then fs' else { fs' with files := fs'.files ++ [dst] }

/-- Models `helpers.move_files_to_folder`: raises `FileNotFoundError` (modelled by
`some msg`) when the source folder is missing, else creates the destination
directory and, for each filename whose source path exists, copies when
`copy_only`, else moves when `move_only`, else does nothing. -/
def move_files_to_folder (filenames : List String) (sourceFolder destinationFolder : String)
    (copyOnly moveOnly : Bool) (fs : FS) : Option String × FS :=
  if !fs.dirs.contains sourceFolder then
    (some ("Source folder " ++ sourceFolder ++ " does not exist"), fs)
  else
    let fs1 := fs.makedirs destinationFolder
    let fs2 := filenames.foldl (fun acc fn =>
      let src := pjoin sourceFolder fn
      let dst := pjoin destinationFolder fn
      if acc.existsPath src then
        if copyOnly then acc.copy src dst
        else if moveOnly then acc.move src dst
        else acc
      else acc) fs1
    (none, fs2)

/-- The per-file body of
`file_utilites.handle_failed_coregs_per_satellite`. -/
def handleOneFile (satelliteDir failedDir : String) (copyOnly moveOnly : Bool)
    (fs : FS) (filename : String) : FS :=
  let src := pjoin satelliteDir filename
  let dst := pjoin failedDir filename
  if fs.existsPath src then
    if copyOnly then fs.copy src dst
    else if moveOnly then fs.move src dst
    else fs
  else fs

/-- Models `file_utilites.handle_failed_coregs_per_satellite`: for each satellite,
create `coregistered_dir/failed_coregistration/<sat>` and copy or move each
existing failed file out of `coregistered_dir/<sat>/ms`. -/
def handle_failed_coregs_per_satellite (failedCoregs : List (String × List String))
    (coregisteredDir : String) (copyOnly moveOnly : Bool) (fs : FS) : FS :=
  failedCoregs.foldl (fun acc sat =>
    let failedDir := pjoin (pjoin coregisteredDir "failed_coregistration") sat.1
    let satelliteDir := pjoin (pjoin coregisteredDir sat.1) "ms"
    let acc1 := acc.makedirs failedDir
    sat.2.foldl (handleOneFile satelliteDir failedDir copyOnly moveOnly) acc1) fs

/-- Models `file_utilites.copy_original_to_coregistered_per_satellite`: copy every
existing original back into the coregistered tree. -/
def copy_original_to_coregistered_per_satellite (failedCoregs : List (String × List String))
    (unregisteredDir coregisteredDir subfolderName : String) (fs : FS) : FS :=
  failedCoregs.foldl (fun acc sat =>
    let satelliteDir := pjoin (pjoin coregisteredDir sat.1) subfolderName
    let acc1 := acc.makedirs satelliteDir
    sat.2.foldl (fun a fn =>
      let src := pjoin (pjoin (pjoin unregisteredDir sat.1) subfolderName) fn
      let dst := pjoin satelliteDir fn
      if a.existsPath src then a.copy src dst else a) acc1) fs

/-- Models `file_utilites.process_failed_coregistrations`: validates the
copy/move flags first (raising `ValueError`, modelled by `some msg`, with
the filesystem untouched), then triages the failed files and optionally
backfills the originals. -/
def process_failed_coregistrations (failedCoregs : List (String × List String))
    (coregisteredDir unregisteredDir : String) (replace copyOnly moveOnly : Bool)
    (subfolderName : String) (fs : FS) : Option String × FS :=
  if (copyOnly && moveOnly) || (!copyOnly && !moveOnly) then
    (some "Exactly one of copy_only or move_only must be True. Both cannot be True or False.", fs)
  else
    let fs1 := handle_failed_coregs_per_satellite failedCoregs coregisteredDir copyOnly moveOnly fs
    let fs2 :=
      if replace then
        copy_original_to_coregistered_per_satellite failedCoregs unregisteredDir
          coregisteredDir subfolderName fs1
      else fs1
    (none, fs2)

/-- A 2D affine transform `(x, y) ↦ (a x + b y + c, d x + e y + f)`, the
coefficient order of `rasterio.transform.Affine`. -/
structure Aff where
  a : ℚ
  b : ℚ
  c : ℚ
  d : ℚ
  e : ℚ
  f : ℚ
deriving DecidableEq, Repr

/-- Apply the transform to a point (a pixel coordinate `(col, row)`). -/
def Aff.apply (t : Aff) (p : ℚ × ℚ) : ℚ × ℚ :=
  (t.a * p.1 + t.b * p.2 + t.c, t.d * p.1 + t.e * p.2 + t.f)

/-- Affine composition `s * t` (`Affine.__mul__`): apply `t` first, then
`s`. -/
def Aff.mul (s t : Aff) : Aff :=
  { a := s.a * t.a + s.b * t.d
    b := s.a * t.b + s.b * t.e
    c := s.a * t.c + s.b * t.f + s.c
    d := s.d * t.a + s.e * t.d
    e := s.d * t.b + s.e * t.e
    f := s.d * t.c + s.e * t.f + s.f }

/-- Models `Affine.translation`. -/
def Aff.translation (tx ty : ℚ) : Aff :=
  { a := 1, b := 0, c := tx, d := 0, e := 1, f := ty }

/-- A GeoTIFF as read and written by `geo_utils.apply_shift_to_tiff`:
its affine transform, the metadata items the function touches, and the
band pixel data (`bands[i][row][col]`). -/
structure Raster where
  transform : Aff
  dtype : String
  nodata : Option ℚ
  compressionTag : Option String
  bands : List (List (List ℚ))
deriving DecidableEq, Repr

/-- Models `geo_utils.apply_shift_to_tiff`: `shift` is the `[y_shift, x_shift]`
array of the caller; the output metadata is that of the input with
`transform = src.transform * Affine.translation(shift[1], shift[0])` and
`compress` defaulted to `lzw`; all bands are written back verbatim
(`dst.write(src.read())`). -/
def apply_shift_to_tiff (src : Raster) (shift : ℚ × ℚ) : Raster :=
  { src with
    transform := src.transform.mul (Aff.translation shift.2 shift.1)
    compressionTag := some (src.compressionTag.getD "lzw") }

/-- A filter-table row with the given pixel and metric shifts, all other
columns benign (non-null, passing). -/
def mkRow (x y xm ym : ℚ) (w : ℚ × ℚ) : Row :=
  { coregistered_ssim := .num 1
    shift_reliability := .num 60
    shift_x := .num x
    shift_y := .num y
    shift_x_meters := .num xm
    shift_y_meters := .num ym
    window_size := w
    z_score := .sq 0
    filter_passed := true }

/-- The z-score example of the spec: `shift_x` values `[0,0,0,0,100]`, `shift_y`
all `0`. -/
def zExampleTable : List Row :=
  [mkRow 0 0 0 0 (100, 100), mkRow 0 0 0 0 (100, 100), mkRow 0 0 0 0 (100, 100),
   mkRow 0 0 0 0 (100, 100), mkRow 100 0 0 0 (100, 100)]

/-- A row with `shift_x_meters = -300` (absolute shift `300`). -/
def negShiftRow : Row := mkRow 5 (-3) (-300) 0 (100, 100)

/-- The max-shift example row of the spec with `shift_x_meters = 300`. -/
def posShiftRow : Row := mkRow 5 (-3) 300 0 (100, 100)

/-- The window-size example row of the spec with window `(40, 60)`. -/
def windowRow : Row := mkRow 5 (-3) 0 0 (40, 60)

/-- A per-file runner for the batch examples: fails on target `0`,
succeeds elsewhere. -/
def exRun : Nat → Except String Nat :=
  fun t => if t = 0 then .error "fail" else .ok (t + 1)

/-- A per-file runner that always succeeds. -/
def exRunOk : Nat → Except String Nat := fun t => .ok (t + 1)

/-- A concrete engine result object. -/
def exCoregObj : CoregObj :=
  { ssim_orig := some (.vnum 2)
    ssim_deshifted := some (.vnum 5)
    shift_x := some (.vnum 1)
    shift_y := some (.vnum (-2))
    shift_x_meters := some (.vnum 30)
    shift_y_meters := some (.vnum (-60))
    shift_reliability := some (.vnum 80)
    fft_win_size_YX := some (100, 50)
    success := some true }

/-- A concrete results dict with one satellite holding one per-file dict. -/
def exResults : List (String × JVal) := [("L8", .arr [.obj [("f1", .num 1)]])]

/-- A concrete settings object. -/
def exSettings : JVal := .obj [("ws", .num 256)]

/-- The aggregated dict `save_coregistered_results` produces from
`exResults` and `exSettings`. -/
def exSaveOut : List (String × JVal) :=
  [("L8", .obj [("f1", .num 1)]), ("settings", exSettings)]

/-- The record `make_coreg_info` builds from `exCoregObj`. -/
def exCoregRecord : CoregRecord :=
  { original_ssim := .vnum 2
    coregistered_ssim := .vnum 5
    change_ssim := .vnum (5 - 2)
    shift_x := .vnum 1
    shift_y := .vnum (-2)
    shift_x_meters := .vnum 30
    shift_y_meters := .vnum (-60)
    shift_reliability := .vnum 80
    window_size := (50, 100)
    success := true }

/-! ## Theorems -/

theorem ite_false_mono {p : Prop} [Decidable p] {b : Bool}
    (h : (if p then false else b) = true) : b = true := by
  split at h
  · exact absurd h (by simp)
  · exact h

theorem applyStage_eq_map (s : Stage) (df : List Row) :
    ∃ F : Row → Row, applyStage s df = df.map F ∧
      ∀ r : Row, (F r).filter_passed = true → r.filter_passed = true := by
  cases s with
  | outNones =>
      refine ⟨_, rfl, ?_⟩
      exact fun r h => ite_false_mono h
  | reliability t =>
      refine ⟨_, rfl, ?_⟩
      exact fun r h => ite_false_mono h
  | windowSize t =>
      refine ⟨_, rfl, ?_⟩
      exact fun r h => ite_false_mono h
  | maxShift t =>
      refine ⟨_, rfl, ?_⟩
      exact fun r h => ite_false_mono h
  | zscores t po =>
      refine ⟨fun r =>
        { r with
          z_score := zscoreRow
            (meanQ ((cleanRows df po).map fun r => r.shift_x.toQ))
            (varQ ((cleanRows df po).map fun r => r.shift_x.toQ))
            (meanQ ((cleanRows df po).map fun r => r.shift_y.toQ))
            (varQ ((cleanRows df po).map fun r => r.shift_y.toQ)) po r
          filter_passed :=
            if zMask (zscoreRow
                (meanQ ((cleanRows df po).map fun r => r.shift_x.toQ))
                (varQ ((cleanRows df po).map fun r => r.shift_x.toQ))
                (meanQ ((cleanRows df po).map fun r => r.shift_y.toQ))
                (varQ ((cleanRows df po).map fun r => r.shift_y.toQ)) po r) t then false
            else r.filter_passed }, ?_, ?_⟩
      · show applyStage (Stage.zscores t po) df = df.map _
        simp only [applyStage, filter_zscores, calculate_zscore, List.map_map]
        rfl
      · exact fun r h => ite_false_mono h

/-- C1.  Across any sequence of filter stages (null-similarity,
reliability, window-size, max-shift, z-score) the `filter_passed` column is
monotone non-increasing: if a row is passing after the chain it was passing
before, so each stage only flips rows from `true` to `false` and never from
`false` to `true`. -/
theorem filter_chain_passed_monotone (stages : List Stage) (df : List Row) (i : Nat)
    (r' : Row) (h : (applyChain stages df).get? i = some r')
    (hp : r'.filter_passed = true) :
    ∃ r : Row, df.get? i = some r ∧ r.filter_passed = true := by
  induction stages generalizing df with
  | nil => exact ⟨r', h, hp⟩
  | cons s ss ih =>
      obtain ⟨r1, hr1, hp1⟩ := ih (applyStage s df) h
      obtain ⟨F, hF, hmono⟩ := applyStage_eq_map s df
      rw [hF, List.get?_map] at hr1
      obtain ⟨r0, hr0, hFr0⟩ := Option.map_eq_some'.mp hr1
      exact ⟨r0, hr0, hmono r0 (hFr0 ▸ hp1)⟩

/-- Witness for C1 at a concrete chain and table. -/
theorem filter_chain_passed_monotone_witness :
    ∃ r : Row, [mkRow 0 0 0 0 (100, 100)].get? 0 = some r ∧ r.filter_passed = true :=
  filter_chain_passed_monotone [Stage.outNones, Stage.maxShift 250]
    [mkRow 0 0 0 0 (100, 100)] 0 (mkRow 0 0 0 0 (100, 100)) (by decide) (by decide)

theorem zMask_eq_false {z : ZVal} {t : ℚ} (ht : 1 ≤ t) : zMask z t = false := by
  unfold zMask
  split <;> simp <;> linarith

theorem filter_zscores_noop_helper (df : List Row) (t : ℚ) (po : Bool) (ht : 1 ≤ t) :
    (filter_zscores df t po).map Row.filter_passed = df.map Row.filter_passed := by
  simp only [filter_zscores, calculate_zscore, List.map_map]
  refine List.map_congr_left fun r _ => ?_
  simp [Function.comp, zMask_eq_false ht]

/-- C2 counterexample.  On the example of the spec (five rows with `shift_x`
`[0,0,0,0,100]`, `shift_y` all `0`) and threshold `2`, the z-score filter
does not reject only the `shift_x = 100` row: `shift_y` has zero standard
deviation so every combined z-score is `NaN`, and the rejection mask
`(isna(z) | z) > 2` compares booleans with `2` and selects nothing, so all
five rows stay passing. -/
theorem filter_zscores_example_counterexample :
    ¬ ((filter_zscores zExampleTable 2 false).map Row.filter_passed
        = [true, true, true, true, false]) := by
  rw [filter_zscores_noop_helper zExampleTable 2 false (by norm_num)]
  decide

/-- C2 (amended).  Because `pd.isna(z) | z > t` parses as
`(pd.isna(z) | z) > t` and pandas coerces the float operand of `|` to
booleans, the z-score stage rejects a row exactly when the boolean
`z is NaN or z ≠ 0` (as `1`/`0`) exceeds the threshold; hence for any
threshold `≥ 1` (the default is `2`) the stage rejects nothing and leaves
the `filter_passed` of every row unchanged. -/
theorem filter_zscores_threshold_ge_one_noop (df : List Row) (t : ℚ) (po : Bool)
    (ht : 1 ≤ t) :
    (filter_zscores df t po).map Row.filter_passed = df.map Row.filter_passed :=
  filter_zscores_noop_helper df t po ht

/-- Witness for the amended C2 theorem at the example table of the spec. -/
theorem filter_zscores_threshold_ge_one_noop_witness :
    (filter_zscores zExampleTable 2 false).map Row.filter_passed
      = zExampleTable.map Row.filter_passed :=
  filter_zscores_threshold_ge_one_noop zExampleTable 2 false (by norm_num)

/-- C3 counterexample.  A row with `shift_x_meters = -300` (absolute shift
`300 > 250`) is not rejected by the max-shift filter with threshold `250`:
the code compares the signed value, and `-300 > 250` is false. -/
theorem max_shift_negative_counterexample :
    ¬ ((filter_by_max_shift_meters [negShiftRow] 250).map Row.filter_passed = [false]) := by
  decide

/-- C3 (amended).  The max-shift filter keeps a row passing exactly when it
was passing before and both metric shifts are present numbers that are
`≤ threshold` as signed values (so `shift_x_meters = 300` under threshold
`250` is rejected, but `-300` is kept); a null/NaN shift in either axis
rejects the row. -/
theorem filter_by_max_shift_meters_signed (df : List Row) (t : ℚ) (i : Nat) (r : Row)
    (h : df.get? i = some r) :
    ∃ r' : Row, (filter_by_max_shift_meters df t).get? i = some r' ∧
      (r'.filter_passed = true ↔
        r.filter_passed = true ∧
          (∃ qx, r.shift_x_meters = PyF.num qx ∧ qx ≤ t) ∧
          (∃ qy, r.shift_y_meters = PyF.num qy ∧ qy ≤ t)) := by
  refine ⟨_, by rw [filter_by_max_shift_meters, List.get?_map, h]; rfl, ?_⟩
  rcases hx : r.shift_x_meters with _ | _ | qx <;>
    rcases hy : r.shift_y_meters with _ | _ | qy <;>
      simp [PyF.gtB, PyF.isnull, hx, hy]
  by_cases h1 : qx ≤ t <;> by_cases h2 : qy ≤ t <;>
    simp [h1, h2, not_le.mpr, lt_iff_not_le]

/-- Witness for the amended C3 theorem at the `shift_x_meters = 300`
example row. -/
theorem filter_by_max_shift_meters_signed_witness :
    ∃ r' : Row, (filter_by_max_shift_meters [posShiftRow] 250).get? 0 = some r' ∧
      (r'.filter_passed = true ↔
        posShiftRow.filter_passed = true ∧
          (∃ qx, posShiftRow.shift_x_meters = PyF.num qx ∧ qx ≤ 250) ∧
          (∃ qy, posShiftRow.shift_y_meters = PyF.num qy ∧ qy ≤ 250)) :=
  filter_by_max_shift_meters_signed [posShiftRow] 250 0 posShiftRow (by decide)

/-- C4.  The window-size filter keeps a row passing exactly when it was
passing before and both window components meet the threshold (AND
semantics); equivalently it sets `filter_passed` to false exactly when
either component is strictly below the pixel minimum, so the
example row with window `(40, 60)` under threshold `50` is rejected. -/
theorem filter_window_size_and_semantics (df : List Row) (t : ℚ) (i : Nat) (r : Row)
    (h : df.get? i = some r) :
    ∃ r' : Row, (filter_window_size df t).get? i = some r' ∧
      (r'.filter_passed = true ↔
        r.filter_passed = true ∧ t ≤ r.window_size.1 ∧ t ≤ r.window_size.2) := by
  refine ⟨_, by rw [filter_window_size, List.get?_map, h]; rfl, ?_⟩
  by_cases hw : r.window_size.1 < t ∨ r.window_size.2 < t
  · have : ¬ (t ≤ r.window_size.1 ∧ t ≤ r.window_size.2) := by
      rcases hw with hw | hw
      · exact fun hc => absurd hc.1 (not_le.mpr hw)
      · exact fun hc => absurd hc.2 (not_le.mpr hw)
    simp [hw, this]
  · push_neg at hw
    have hcond : ¬ (r.window_size.1 < t ∨ r.window_size.2 < t) := by
      rintro (hc | hc)
      · exact absurd hc (not_lt.mpr hw.1)
      · exact absurd hc (not_lt.mpr hw.2)
    simp [hcond, hw.1, hw.2]

/-- Witness for C4 at the `(40, 60)` window example row of the spec. -/
theorem filter_window_size_and_semantics_witness :
    ∃ r' : Row, (filter_window_size [windowRow] 50).get? 0 = some r' ∧
      (r'.filter_passed = true ↔
        windowRow.filter_passed = true ∧ 50 ≤ windowRow.window_size.1 ∧
          50 ≤ windowRow.window_size.2) :=
  filter_window_size_and_semantics [windowRow] 50 0 windowRow (by decide)

/-- C5.  For every record built by `make_coreg_info` (without raising), the
stored `change_ssim` equals the stored `coregistered_ssim` minus the stored
`original_ssim` whenever both are numeric, and equals the default `0`
otherwise. -/
theorem make_coreg_info_change_ssim (cro : Option CoregObj) (rec : CoregRecord)
    (h : make_coreg_info cro = .ok rec) :
    (∀ a b, rec.original_ssim = .vnum a → rec.coregistered_ssim = .vnum b →
        rec.change_ssim = .vnum (b - a)) ∧
    (¬ ((∃ a, rec.original_ssim = .vnum a) ∧ (∃ b, rec.coregistered_ssim = .vnum b)) →
        rec.change_ssim = .vnum 0) := by
  cases cro with
  | none =>
      simp only [make_coreg_info, Except.ok.injEq] at h
      subst h
      constructor
      · intro a b ha hb
        simp only [defaultRecord, PyV.vnum.injEq] at ha hb
        subst ha
        subst hb
        simp [defaultRecord]
      · intro _
        rfl
  | some cr =>
      rcases ho : cr.ssim_orig.getD (PyV.vnum 0) with _ | a0 | s0 <;>
        rcases hc : cr.ssim_deshifted.getD (PyV.vnum 0) with _ | b0 | t0 <;>
          simp [make_coreg_info, ho, hc, PyV.sub, nullToZero] at h
      · subst h
        exact ⟨fun a b ha hb => by simp at ha, fun _ => rfl⟩
      · subst h
        exact ⟨fun a b ha hb => by simp at ha, fun _ => rfl⟩
      · subst h
        exact ⟨fun a b ha hb => by simp at ha, fun _ => rfl⟩
      · subst h
        exact ⟨fun a b ha hb => by simp at hb, fun _ => rfl⟩
      · subst h
        constructor
        · intro a b ha hb
          simp only [PyV.vnum.injEq] at ha hb
          subst ha
          subst hb
          rfl
        · intro h2
          exact absurd ⟨⟨a0, rfl⟩, ⟨b0, rfl⟩⟩ h2
      · subst h
        exact ⟨fun a b ha hb => by simp at hb, fun _ => rfl⟩

/-- Witness for C5 at a concrete engine object. -/
theorem make_coreg_info_change_ssim_witness :
    (∀ a b, exCoregRecord.original_ssim = .vnum a → exCoregRecord.coregistered_ssim = .vnum b →
        exCoregRecord.change_ssim = .vnum (b - a)) ∧
    (¬ ((∃ a, exCoregRecord.original_ssim = .vnum a) ∧
          (∃ b, exCoregRecord.coregistered_ssim = .vnum b)) →
        exCoregRecord.change_ssim = .vnum 0) :=
  make_coreg_info_change_ssim (some exCoregObj) exCoregRecord rfl

theorem coregLoop_ok_of_all_ok {α ε ρ : Type} (runOne : α → Except ε ρ) (ts : List α)
    (h : ∀ t ∈ ts, ∃ r, runOne t = .ok r) (acc : List ρ) :
    ∃ rs, coregLoop runOne ts acc = .ok rs ∧ rs.length = acc.length + ts.length := by
  induction ts generalizing acc with
  | nil => exact ⟨acc.reverse, rfl, by simp⟩
  | cons t ts ih =>
      obtain ⟨r, hr⟩ := h t (by simp)
      obtain ⟨rs, hrs, hlen⟩ := ih (fun u hu => h u (by simp [hu])) (r :: acc)
      refine ⟨rs, ?_, ?_⟩
      · simp [coregLoop, hr, hrs]
      · simp only [List.length_cons] at hlen ⊢
        omega

theorem coregLoop_error_of_prefix {α ε ρ : Type} (runOne : α → Except ε ρ) (pre : List α)
    (t : α) (rest : List α) (e : ε) (hpre : ∀ u ∈ pre, ∃ r, runOne u = .ok r)
    (ht : runOne t = .error e) (acc : List ρ) :
    coregLoop runOne (pre ++ t :: rest) acc = .error e := by
  induction pre generalizing acc with
  | nil => simp [coregLoop, ht]
  | cons u pre ih =>
      obtain ⟨r, hr⟩ := hpre u (by simp)
      simp only [List.cons_append, coregLoop, hr]
      exact ih (fun v hv => hpre v (by simp [hv])) (r :: acc)

/-- C6 counterexample.  A batch of two targets whose first target raises
does not return one record per target: `coregister_files` has no exception
handling, so the error propagates and the whole batch aborts. -/
theorem coregister_files_abort_counterexample :
    coregister_files [0, 1] exRun = .error "fail" ∧
      ∀ rs : List Nat, coregister_files [0, 1] exRun ≠ .ok rs := by
  refine ⟨rfl, ?_⟩
  intro rs h
  rw [show coregister_files [0, 1] exRun = .error "fail" from rfl] at h
  exact Except.noConfusion h

/-- C6 (amended).  `coregister_files` iterates the single-file operation
over all targets, but per-file failures are not caught: when every target
succeeds it returns one result record per target, and the first per-file
failure (for example a conditioning error raised before the engine runs)
propagates and aborts the batch. -/
theorem coregister_files_per_target {α ε ρ : Type} (targets : List α)
    (runOne : α → Except ε ρ) :
    ((∀ t ∈ targets, ∃ r, runOne t = .ok r) →
      ∃ rs, coregister_files targets runOne = .ok rs ∧ rs.length = targets.length) ∧
    (∀ (pre : List α) (t : α) (rest : List α) (e : ε),
      targets = pre ++ t :: rest → (∀ u ∈ pre, ∃ r, runOne u = .ok r) →
      runOne t = .error e → coregister_files targets runOne = .error e) := by
  constructor
  · intro h
    cases targets with
    | nil => exact ⟨[], rfl, rfl⟩
    | cons t ts =>
        obtain ⟨rs, hrs, hlen⟩ := coregLoop_ok_of_all_ok runOne (t :: ts) h []
        refine ⟨rs, ?_, ?_⟩
        · simpa [coregister_files] using hrs
        · simpa using hlen
  · intro pre t rest e htg hpre ht
    subst htg
    have hne : (pre ++ t :: rest).isEmpty = false := by
      cases pre <;> simp
    simp only [coregister_files, hne, Bool.false_eq_true, if_false]
    exact coregLoop_error_of_prefix runOne pre t rest e hpre ht []

/-- Witness for the amended C6 theorem: an all-success batch of two targets
yields two records. -/
theorem coregister_files_per_target_witness :
    ∃ rs : List Nat, coregister_files [3, 7] exRunOk = .ok rs ∧ rs.length = [3, 7].length :=
  (coregister_files_per_target [3, 7] exRunOk).1 (fun t _ => ⟨t + 1, rfl⟩)

/-- C8.  The triage entry point validates the copy/move flags before doing
anything: requesting both or neither of `copy_only` / `move_only` raises
the configuration error with the filesystem untouched, while requesting
exactly one of them raises no such error. -/
theorem process_failed_coregistrations_flag_check (failedCoregs : List (String × List String))
    (coregisteredDir unregisteredDir : String) (replace copyOnly moveOnly : Bool)
    (subfolderName : String) (fs : FS) :
    (((copyOnly && moveOnly) || (!copyOnly && !moveOnly)) = true →
      process_failed_coregistrations failedCoregs coregisteredDir unregisteredDir replace
        copyOnly moveOnly subfolderName fs
        = (some "Exactly one of copy_only or move_only must be True. Both cannot be True or False.",
            fs)) ∧
    (copyOnly ≠ moveOnly →
      (process_failed_coregistrations failedCoregs coregisteredDir unregisteredDir replace
        copyOnly moveOnly subfolderName fs).1 = none) := by
  constructor
  · intro hflag
    simp [process_failed_coregistrations, hflag]
  · intro hne
    have hflag : ((copyOnly && moveOnly) || (!copyOnly && !moveOnly)) = false := by
      cases copyOnly <;> cases moveOnly <;> simp_all
    simp [process_failed_coregistrations, hflag]

/-- Witness for C8 at concrete flag configurations. -/
theorem process_failed_coregistrations_flag_check_witness :
    process_failed_coregistrations [("L8", ["a.tif"])] "coreg" "unreg" false true true "ms"
        ⟨[], []⟩
      = (some "Exactly one of copy_only or move_only must be True. Both cannot be True or False.",
          ⟨[], []⟩) ∧
    (process_failed_coregistrations [("L8", ["a.tif"])] "coreg" "unreg" false true false "ms"
        ⟨[], []⟩).1 = none :=
  ⟨(process_failed_coregistrations_flag_check [("L8", ["a.tif"])] "coreg" "unreg" false
      true true "ms" ⟨[], []⟩).1 rfl,
   (process_failed_coregistrations_flag_check [("L8", ["a.tif"])] "coreg" "unreg" false
      true false "ms" ⟨[], []⟩).2 (by decide)⟩

theorem Aff.apply_mul (s t : Aff) (p : ℚ × ℚ) :
    (s.mul t).apply p = s.apply (t.apply p) := by
  simp only [Aff.mul, Aff.apply, Prod.mk.injEq]
  constructor <;> ring

/-- C9.  Applying a pixel shift to a raster composes its affine transform
with the translation by `(shift_x, shift_y)` applied in the source pixel
grid (the new transform at pixel `p` equals the old transform at
`p + (shift_x, shift_y)`), and leaves all band pixel values, the dtype and
the nodata metadata unchanged. -/
theorem apply_shift_to_tiff_spec (src : Raster) (sy sx : ℚ) :
    (∀ p : ℚ × ℚ, (apply_shift_to_tiff src (sy, sx)).transform.apply p
        = src.transform.apply (p.1 + sx, p.2 + sy)) ∧
    (apply_shift_to_tiff src (sy, sx)).bands = src.bands ∧
    (apply_shift_to_tiff src (sy, sx)).dtype = src.dtype ∧
    (apply_shift_to_tiff src (sy, sx)).nodata = src.nodata := by
  refine ⟨fun p => ?_, rfl, rfl, rfl⟩
  show (src.transform.mul (Aff.translation sx sy)).apply p = _
  rw [Aff.apply_mul]
  simp [Aff.translation, Aff.apply]

theorem makedirs_files (fs : FS) (d : String) : (fs.makedirs d).files = fs.files := by
  unfold FS.makedirs
  split <;> rfl

theorem makedirs_contains (fs : FS) (d : String) :
    (fs.makedirs d).dirs.contains d = true := by
  unfold FS.makedirs
  split
  · assumption
  · simp

/-- C10.  Calling `move_files_to_folder` with its default
`copy_only=False, move_only=False` (and an existing source folder) is a
silent no-op on the files: no error is raised, no file is copied or moved
(the file list is unchanged), and the destination directory is still
created. -/
theorem move_files_to_folder_neither_mode_noop (filenames : List String)
    (sourceFolder destinationFolder : String) (fs : FS)
    (hsrc : fs.dirs.contains sourceFolder = true) :
    (move_files_to_folder filenames sourceFolder destinationFolder false false fs).1 = none ∧
    (move_files_to_folder filenames sourceFolder destinationFolder false false fs).2.files
      = fs.files ∧
    (move_files_to_folder filenames sourceFolder destinationFolder false false
        fs).2.dirs.contains destinationFolder = true := by
  have hfold : ∀ (fns : List String) (acc : FS),
      List.foldl (fun (a : FS) (_ : String) => a) acc fns = acc := by
    intro fns
    induction fns with
    | nil => intro acc; rfl
    | cons fn fns ih =>
        intro acc
        rw [List.foldl_cons]
        exact ih acc
  unfold move_files_to_folder
  rw [hsrc]
  simp only [Bool.not_true, Bool.false_eq_true, if_false, ite_self, hfold]
  exact ⟨trivial, makedirs_files fs destinationFolder, makedirs_contains fs destinationFolder⟩

/-- Witness for C10 at a concrete filesystem. -/
theorem move_files_to_folder_neither_mode_noop_witness :
    (move_files_to_folder ["a.tif"] "src" "out" false false ⟨["src/a.tif"], ["src"]⟩).1 = none ∧
    (move_files_to_folder ["a.tif"] "src" "out" false false ⟨["src/a.tif"], ["src"]⟩).2.files
      = ["src/a.tif"] ∧
    (move_files_to_folder ["a.tif"] "src" "out" false false
        ⟨["src/a.tif"], ["src"]⟩).2.dirs.contains "out" = true :=
  move_files_to_folder_neither_mode_noop ["a.tif"] "src" "out" ⟨["src/a.tif"], ["src"]⟩
    (by decide)

theorem setKey_of_not_mem {d : List (String × JVal)} {k : String} (v : JVal)
    (h : k ∉ d.map Prod.fst) : setKey d k v = d ++ [(k, v)] := by
  induction d with
  | nil => rfl
  | cons kv d ih =>
      obtain ⟨k', v'⟩ := kv
      simp only [List.map_cons, List.mem_cons, not_or] at h
      simp only [setKey, List.cons_append]
      rw [if_neg fun he => h.1 he.symm, ih h.2]

theorem setKey_keys {d : List (String × JVal)} (k : String) (v : JVal) :
    (setKey d k v).map Prod.fst
      = if k ∈ d.map Prod.fst then d.map Prod.fst else d.map Prod.fst ++ [k] := by
  induction d with
  | nil => rfl
  | cons kv d ih =>
      obtain ⟨k', v'⟩ := kv
      by_cases hk : k' = k
      · subst hk
        simp [setKey]
      · simp only [setKey, if_neg hk, List.map_cons, ih]
        have hne : ¬ k = k' := fun he => hk he.symm
        by_cases hm : k ∈ d.map Prod.fst
        · simp [hm, hne]
        · simp [hm, hne]

theorem mem_keys_setKey {d : List (String × JVal)} (k : String) (v : JVal) :
    k ∈ (setKey d k v).map Prod.fst := by
  rw [setKey_keys]
  split
  · assumption
  · simp

theorem setKey_keys_nodup {d : List (String × JVal)} {k : String} (v : JVal)
    (h : (d.map Prod.fst).Nodup) : ((setKey d k v).map Prod.fst).Nodup := by
  rw [setKey_keys]
  split
  · exact h
  · next hm =>
      rw [List.nodup_append]
      refine ⟨h, List.nodup_singleton _, fun a ha hb => ?_⟩
      rw [List.mem_singleton] at hb
      exact hm (hb ▸ ha)

theorem mem_setKey {d : List (String × JVal)} {k : String} {v : JVal} {kv : String × JVal}
    (h : kv ∈ setKey d k v) : kv ∈ d ∨ kv = (k, v) := by
  induction d with
  | nil =>
      simp only [setKey] at h
      simp at h
      exact Or.inr h
  | cons kv' d ih =>
      obtain ⟨k', v'⟩ := kv'
      simp only [setKey] at h
      split at h
      · next he =>
          subst he
          rcases List.mem_cons.mp h with h | h
          · exact Or.inr (by simpa using h)
          · exact Or.inl (List.mem_cons_of_mem _ h)
      · rcases List.mem_cons.mp h with h | h
        · exact Or.inl (by simp [h])
        · rcases ih h with h | h
          · exact Or.inl (List.mem_cons_of_mem _ h)
          · exact Or.inr h

theorem lookupKey_mem {d : List (String × JVal)} {k : String} {v : JVal}
    (h : lookupKey d k = some v) : (k, v) ∈ d := by
  induction d with
  | nil => exact absurd h (by simp [lookupKey])
  | cons kv d ih =>
      obtain ⟨k', v'⟩ := kv
      simp only [lookupKey] at h
      split at h
      · next he =>
          subst he
          simp at h
          simp [h]
      · exact List.mem_cons_of_mem _ (ih h)

theorem dictUpdate_keys_nodup {d : List (String × JVal)} (e : List (String × JVal))
    (h : (d.map Prod.fst).Nodup) : ((dictUpdate d e).map Prod.fst).Nodup := by
  induction e generalizing d with
  | nil => exact h
  | cons kv e ih =>
      rw [show dictUpdate d (kv :: e) = dictUpdate (setKey d kv.1 kv.2) e from rfl]
      exact ih (setKey_keys_nodup _ h)

theorem mem_dictUpdate {d e : List (String × JVal)} {kv : String × JVal}
    (h : kv ∈ dictUpdate d e) : kv ∈ d ∨ kv ∈ e := by
  induction e generalizing d with
  | nil => exact Or.inl h
  | cons kv' e ih =>
      rw [show dictUpdate d (kv' :: e) = dictUpdate (setKey d kv'.1 kv'.2) e from rfl] at h
      rcases ih h with h | h
      · rcases mem_setKey h with h | h
        · exact Or.inl h
        · rw [h]
          exact Or.inr (List.mem_cons_self _ _)
      · exact Or.inr (List.mem_cons_of_mem _ h)

theorem merge_keys_nodup (ds : List (List (String × JVal))) :
    ((merge_list_of_dicts ds).map Prod.fst).Nodup := by
  have hgen : ∀ (acc : List (String × JVal)), (acc.map Prod.fst).Nodup →
      ((ds.foldl dictUpdate acc).map Prod.fst).Nodup := by
    induction ds with
    | nil => exact fun _ h => h
    | cons d ds ih => exact fun acc h => ih _ (dictUpdate_keys_nodup d h)
  exact hgen [] (by simp)

theorem mem_merge {ds : List (List (String × JVal))} {kv : String × JVal}
    (h : kv ∈ merge_list_of_dicts ds) : ∃ d ∈ ds, kv ∈ d := by
  have hgen : ∀ (ds' : List (List (String × JVal))) (acc : List (String × JVal)),
      kv ∈ ds'.foldl dictUpdate acc → kv ∈ acc ∨ ∃ d ∈ ds', kv ∈ d := by
    intro ds'
    induction ds' with
    | nil => exact fun _ h => Or.inl h
    | cons d ds' ih =>
        intro acc h
        rcases ih (dictUpdate acc d) h with h | ⟨d', hd', hkv⟩
        · rcases mem_dictUpdate h with h | h
          · exact Or.inl h
          · exact Or.inr ⟨d, by simp, h⟩
        · exact Or.inr ⟨d', by simp [hd'], hkv⟩
  rcases hgen ds [] h with h | h
  · simp at h
  · exact h

theorem foldl_setKey_append (kvs : List (String × JVal)) :
    ∀ acc : List (String × JVal), (kvs.map Prod.fst).Nodup →
      (∀ k ∈ kvs.map Prod.fst, k ∉ acc.map Prod.fst) →
      kvs.foldl (fun a kv => setKey a kv.1 kv.2) acc = acc ++ kvs := by
  induction kvs with
  | nil =>
      intro acc _ _
      simp
  | cons kv kvs ih =>
      intro acc hnd hdisj
      rw [List.map_cons] at hnd
      have hnd' := List.nodup_cons.mp hnd
      have hd : ∀ k ∈ kvs.map Prod.fst, k ∉ (acc ++ [(kv.1, kv.2)]).map Prod.fst := by
        intro k hk
        simp only [List.map_append, List.mem_append, not_or, List.map_cons, List.map_nil,
          List.mem_singleton]
        exact ⟨hdisj k (by simp [hk]), fun he => hnd'.1 (he ▸ hk)⟩
      rw [List.foldl_cons, setKey_of_not_mem _ (hdisj kv.1 (by simp)), ih _ hnd'.2 hd]
      simp

theorem asObj_eq_some {x : JVal} {d : List (String × JVal)} (h : asObj x = some d) :
    x = .obj d := by
  cases x <;> simp [asObj] at h
  rw [h]

theorem mapM_asObj_mem {xs : List JVal} {ds : List (List (String × JVal))}
    (h : xs.mapM asObj = some ds) {d : List (String × JVal)} (hd : d ∈ ds) :
    JVal.obj d ∈ xs := by
  induction xs generalizing ds with
  | nil =>
      simp only [List.mapM_nil, pure, Option.some.injEq] at h
      subst h
      simp at hd
  | cons x xs ih =>
      rw [List.mapM_cons] at h
      cases hx : asObj x with
      | none =>
          rw [hx] at h
          simp at h
      | some d0 =>
          rw [hx] at h
          cases hxs : xs.mapM asObj with
          | none =>
              rw [hxs] at h
              simp at h
          | some ds' =>
              rw [hxs] at h
              simp at h
              subst h
              rcases List.mem_cons.mp hd with hd | hd
              · subst hd
                rw [asObj_eq_some hx]
                exact List.mem_cons_self _ _
              · exact List.mem_cons_of_mem _ (ih hxs hd)

theorem map_fst_filter_ne (d : List (String × JVal)) (k : String) :
    (d.filter fun kv => decide (kv.1 ≠ k)).map Prod.fst
      = (d.map Prod.fst).filter fun a => decide (a ≠ k) := by
  induction d with
  | nil => rfl
  | cons kv d ih =>
      simp only [decide_not] at ih ⊢
      simp only [List.filter_cons, List.map_cons]
      by_cases hk : kv.1 = k
      · simp [hk, ih]
      · simp [hk, ih]

theorem jsonRoundTrip_eq_self {j : JVal} (h : JWF j) : jsonRoundTrip j = j := by
  induction h with
  | null => simp [jsonRoundTrip]
  | bool b => simp [jsonRoundTrip]
  | num q => simp [jsonRoundTrip]
  | str s => simp [jsonRoundTrip]
  | arr xs hmem ih =>
      simp only [jsonRoundTrip]
      congr 1
      calc xs.attach.map (fun x => jsonRoundTrip x.1)
          = xs.attach.map (fun x => x.1) := List.map_congr_left fun x _ => ih x.1 x.2
        _ = xs := List.attach_map_subtype_val xs
  | obj kvs hnd hmem ih =>
      simp only [jsonRoundTrip]
      congr 1
      have h1 : kvs.attach.map (fun kv => (kv.1.1, jsonRoundTrip kv.1.2)) = kvs := by
        calc kvs.attach.map (fun kv => (kv.1.1, jsonRoundTrip kv.1.2))
            = kvs.attach.map (fun kv => kv.1) :=
              List.map_congr_left fun kv _ => by rw [ih kv.1 kv.2]
          _ = kvs := List.attach_map_subtype_val kvs
      rw [h1, foldl_setKey_append kvs [] hnd (by simp)]
      rfl

theorem JWF_obj_keys {kvs : List (String × JVal)} (h : JWF (.obj kvs)) :
    (kvs.map Prod.fst).Nodup := by
  cases h
  assumption

theorem JWF_obj_values {kvs : List (String × JVal)} (h : JWF (.obj kvs)) :
    ∀ kv ∈ kvs, JWF kv.2 := by
  cases h
  assumption

theorem JWF_arr_mem {xs : List JVal} (h : JWF (.arr xs)) : ∀ x ∈ xs, JWF x := by
  cases h
  assumption

theorem moveToEnd_eq {d : List (String × JVal)} {k : String} {out : List (String × JVal)}
    (h : moveToEnd d k = some out) :
    ∃ v, lookupKey d k = some v ∧
      out = (d.filter fun kv => decide (kv.1 ≠ k)) ++ [(k, v)] := by
  unfold moveToEnd at h
  cases hl : lookupKey d k with
  | none =>
      rw [hl] at h
      exact absurd h (by simp)
  | some v =>
      rw [hl] at h
      simp only [Option.some.injEq] at h
      exact ⟨v, rfl, h.symm⟩

theorem save_decomp {results : List (String × JVal)} {satellite : String} {settings : JVal}
    {out : List (String × JVal)}
    (h : save_coregistered_results results satellite settings = some out) :
    ∃ v ds, lookupKey results satellite = some v ∧ asObjList v = some ds ∧
      moveToEnd (setKey (setKey results satellite (.obj (merge_list_of_dicts ds)))
        "settings" settings) "settings" = some out := by
  unfold save_coregistered_results at h
  cases hv : lookupKey results satellite with
  | none =>
      rw [hv] at h
      exact absurd (h : (none : Option (List (String × JVal))) = some out) (by simp)
  | some v =>
      rw [hv] at h
      have h2 : (asObjList v).bind (fun ds =>
          moveToEnd (setKey (setKey results satellite (JVal.obj (merge_list_of_dicts ds)))
            "settings" settings) "settings") = some out := h
      cases hds : asObjList v with
      | none =>
          rw [hds] at h2
          simp at h2
      | some ds =>
          rw [hds] at h2
          exact ⟨v, ds, rfl, hds, by simpa using h2⟩

/-- C7.  `save_coregistered_results` makes `settings` the final key of the
aggregated dict (re-inserting and moving it to the end even when it already
existed at an earlier position), and the `json.dump`/`json.load` round trip
is the identity on the result (all per-file values equal, `settings` still
the last key), given that the input dicts have distinct keys at every
level. -/
theorem save_coregistered_results_round_trip (results : List (String × JVal))
    (satellite : String) (settings : JVal) (out : List (String × JVal))
    (hwf : JWF (.obj results)) (hs : JWF settings)
    (h : save_coregistered_results results satellite settings = some out) :
    (out.map Prod.fst).getLast? = some "settings" ∧
      jsonRoundTrip (.obj out) = .obj out := by
  obtain ⟨v, ds, hv, hds, hmove⟩ := save_decomp h
  obtain ⟨sv, hsv, hout⟩ := moveToEnd_eq hmove
  have hknd := JWF_obj_keys hwf
  have hvals := JWF_obj_values hwf
  have hmergewf : JWF (.obj (merge_list_of_dicts ds)) := by
    refine JWF.obj _ (merge_keys_nodup ds) ?_
    intro kv hkv
    obtain ⟨d, hdmem, hkvd⟩ := mem_merge hkv
    have hvwf : JWF v := hvals _ (lookupKey_mem hv)
    cases v with
    | arr xs =>
        have hobj : JVal.obj d ∈ xs := mapM_asObj_mem (by simpa [asObjList] using hds) hdmem
        exact JWF_obj_values (JWF_arr_mem hvwf _ hobj) _ hkvd
    | null => simp [asObjList] at hds
    | bool b => simp [asObjList] at hds
    | num q => simp [asObjList] at hds
    | str s => simp [asObjList] at hds
    | obj kvs2 => simp [asObjList] at hds
  set r1 := setKey results satellite (.obj (merge_list_of_dicts ds)) with hr1
  set r2 := setKey r1 "settings" settings with hr2
  have hr1keys : (r1.map Prod.fst).Nodup := setKey_keys_nodup _ hknd
  have hr1vals : ∀ kv ∈ r1, JWF kv.2 := by
    intro kv hkv
    rcases mem_setKey hkv with hkv | hkv
    · exact hvals _ hkv
    · rw [hkv]
      exact hmergewf
  have hr2keys : (r2.map Prod.fst).Nodup := setKey_keys_nodup _ hr1keys
  have hr2vals : ∀ kv ∈ r2, JWF kv.2 := by
    intro kv hkv
    rcases mem_setKey hkv with hkv | hkv
    · exact hr1vals _ hkv
    · rw [hkv]
      exact hs
  have houtkeys : out.map Prod.fst
      = ((r2.map Prod.fst).filter fun a => decide (a ≠ "settings")) ++ ["settings"] := by
    rw [hout, List.map_append, map_fst_filter_ne]
    rfl
  constructor
  · rw [houtkeys,
      List.getLast?_append_of_ne_nil _ (show (["settings"] : List String) ≠ [] by simp)]
    rfl
  · have houtwf : JWF (.obj out) := by
      refine JWF.obj _ ?_ ?_
      · rw [houtkeys, List.nodup_append]
        refine ⟨hr2keys.filter _, List.nodup_singleton _, ?_⟩
        intro a ha hb
        rw [List.mem_singleton] at hb
        subst hb
        have hne := (List.mem_filter.mp ha).2
        simp at hne
      · intro kv hkv
        rw [hout] at hkv
        rcases List.mem_append.mp hkv with hkv | hkv
        · exact hr2vals _ (List.mem_of_mem_filter hkv)
        · rw [List.mem_singleton] at hkv
          rw [hkv]
          exact hr2vals _ (lookupKey_mem hsv)
    exact jsonRoundTrip_eq_self houtwf

/-- Witness for C7 at a concrete one-satellite result set. -/
theorem save_coregistered_results_round_trip_witness :
    (exSaveOut.map Prod.fst).getLast? = some "settings" ∧
      jsonRoundTrip (.obj exSaveOut) = .obj exSaveOut :=
  save_coregistered_results_round_trip exResults "L8" exSettings exSaveOut
    (by
      refine JWF.obj _ (by simp [exResults]) ?_
      intro kv hkv
      simp only [exResults, List.mem_singleton] at hkv
      subst hkv
      refine JWF.arr _ ?_
      intro x hx
      simp only [List.mem_singleton] at hx
      subst hx
      refine JWF.obj _ (by simp) ?_
      intro kv hkv
      simp only [List.mem_singleton] at hkv
      subst hkv
      exact JWF.num 1)
    (by
      refine JWF.obj _ (by simp [exSettings]) ?_
      intro kv hkv
      simp only [exSettings, List.mem_singleton] at hkv
      subst hkv
      exact JWF.num 256)
    rfl

end Coreg
